import Mathlib

/-!
Verification of the typed-expression layer of the A5 SQL query compiler
(`src/Main/SQL/headers/ExprTree.h`): a shallow embedding of the expression
tree, its `typeCheck`, `toString`, `isAggregate` and `getReferencedAttributes`
operations, followed by theorems about the type-checking and traversal
behaviour.

The catalog collaborators (`MyDB_Table.h`, `MyDB_AttType.h`) are not part of
the given sources; they are modelled from the specification's external
interface contract (spec §6).  Diagnostics printed to `cout` are modelled as
an explicit list of message lines returned next to the inferred type.
-/

set_option maxHeartbeats 1000000

namespace A5

/-- The five-valued result domain of type inference (ExprTree.h line 17). -/
inductive ReturnType where
  | stringType
  | intType
  | doubleType
  | boolType
  | errType
deriving DecidableEq, Repr

open ReturnType

/-- `typeToString` (ExprTree.h lines 19-28). -/
def typeToString : ReturnType → String
  | intType => "int"
  | doubleType => "double"
  | stringType => "string"
  | boolType => "bool"
  | errType => "error"

/-- Modelled from the spec: the attribute-type collaborator (`MyDB_AttType.h`,
not under src/).  Spec §6: `type.isBoolean() -> bool`, and the attribute
type's canonical name string, which the source reads via `attType->toString()`. -/
structure MyDB_AttType where
  isBool : Bool
  toString : String
deriving DecidableEq, Repr

/-- Modelled from the spec: a table schema (`MyDB_Table.h`, not under src/).
Spec §6: `Schema.lookupAttribute(name) -> optional<(position:int, type)>`;
the source's `schema->getAttByName` returns position `-1` when the attribute
is absent, modelled here as `none`. -/
structure MyDB_Schema where
  atts : List (String × MyDB_AttType)
deriving DecidableEq, Repr

/-- Modelled from the spec: `getAttByName` scans the schema for the first
attribute of the given name, yielding its ordinal position and type. -/
def MyDB_Schema.getAttByName (s : MyDB_Schema) (attName : String) :
    Option (Nat × MyDB_AttType) :=
  go 0 s.atts
where
  go : Nat → List (String × MyDB_AttType) → Option (Nat × MyDB_AttType)
    | _, [] => none
    | i, (n, t) :: rest => if n = attName then some (i, t) else go (i + 1) rest

/-- Modelled from the spec: a catalog table (`MyDB_Table.h`, not under src/)
exposing its schema via `getSchema`. -/
structure MyDB_Table where
  schema : MyDB_Schema
deriving DecidableEq, Repr

def MyDB_Table.getSchema (t : MyDB_Table) : MyDB_Schema := t.schema

/-- Modelled from the spec: catalog lookup, spec §6
`lookupTable(name) -> optional<Schema>`; the source performs
`allTables.find(actualTableName)` on a `std::map` keyed by table name. -/
def lookupTable : List (String × MyDB_Table) → String → Option MyDB_Table
  | [], _ => none
  | (n, t) :: rest, name => if n = name then some t else lookupTable rest name

/-- The alias scan of `Identifier::typeCheck` (ExprTree.h lines 154-161):
walk `tablesToProcess` in order and take the first pair whose second
component (the alias) matches, yielding its first component (the table name). -/
def lookupAlias : List (String × String) → String → Option String
  | [], _ => none
  | p :: rest, a => if p.2 = a then some p.1 else lookupAlias rest a

/-- The mapping from a schema attribute type to a `ReturnType`
(ExprTree.h lines 188-196): boolean attribute types map to `boolType`,
otherwise the canonical name string is matched against `int`, `double`,
`string`; anything unmatched yields `errType` (with no diagnostic printed). -/
def attTypeToReturnType (attType : MyDB_AttType) : ReturnType :=
  if attType.isBool then boolType
  else if attType.toString = "int" then intType
  else if attType.toString = "double" then doubleType
  else if attType.toString = "string" then stringType
  else errType

/-- Decimal digit characters, used to model `std::to_string` on integers. -/
def digitChar : Nat → Char
  | 0 => '0'
  | 1 => '1'
  | 2 => '2'
  | 3 => '3'
  | 4 => '4'
  | 5 => '5'
  | 6 => '6'
  | 7 => '7'
  | 8 => '8'
  | _ => '9'

/-- The decimal digits of a natural number, most significant first: the
character sequence `std::to_string` produces for a non-negative value. -/
def natChars (n : Nat) : List Char :=
  if h : n < 10 then [digitChar n]
  else natChars (n / 10) ++ [digitChar (n % 10)]
decreasing_by
  exact Nat.div_lt_self (by omega) (by omega)

/-- The character sequence `std::to_string` produces for an `int`:
a leading minus sign for negative values, then the decimal magnitude. -/
def intChars : Int → List Char
  | Int.ofNat n => natChars n
  | Int.negSucc n => '-' :: natChars (n + 1)

/-- The expression tree (ExprTree.h): a closed set of node kinds.  The
`StringLiteral` constructor stores the already-stripped literal content (the
source's constructor removes one leading and one trailing delimiter from the
raw token before storing it); the `DoubleLiteral` value's textual form is
host floating-point formatting, which is not modelled further. -/
inductive ExprTree where
  | BoolLiteral (myVal : Bool)
  | DoubleLiteral (myVal : Float)
  | IntLiteral (myVal : Int)
  | StringLiteral (myVal : String)
  | Identifier (tableName attName : String)
  | MinusOp (lhs rhs : ExprTree)
  | PlusOp (lhs rhs : ExprTree)
  | TimesOp (lhs rhs : ExprTree)
  | DivideOp (lhs rhs : ExprTree)
  | GtOp (lhs rhs : ExprTree)
  | LtOp (lhs rhs : ExprTree)
  | NeqOp (lhs rhs : ExprTree)
  | OrOp (lhs rhs : ExprTree)
  | EqOp (lhs rhs : ExprTree)
  | NotOp (child : ExprTree)
  | SumOp (child : ExprTree)
  | AvgOp (child : ExprTree)

namespace ExprTree

/-- `toString` of every node kind, per the source's renderings
(`bool[...]`, `int[...]`, `[alias_att]`, `op (L, R)`, `!(C)`, `sum(C)`,
`avg(C)`, ...). -/
def toString : ExprTree → String
  | BoolLiteral b => if b then "bool[true]" else "bool[false]"
  | DoubleLiteral v => "double[" ++ v.toString ++ "]"
  | IntLiteral n => "int[" ++ String.mk (intChars n) ++ "]"
  | StringLiteral s => "string[" ++ s ++ "]"
  | Identifier t a => "[" ++ t ++ "_" ++ a ++ "]"
  | MinusOp l r => "- (" ++ l.toString ++ ", " ++ r.toString ++ ")"
  | PlusOp l r => "+ (" ++ l.toString ++ ", " ++ r.toString ++ ")"
  | TimesOp l r => "* (" ++ l.toString ++ ", " ++ r.toString ++ ")"
  | DivideOp l r => "/ (" ++ l.toString ++ ", " ++ r.toString ++ ")"
  | GtOp l r => "> (" ++ l.toString ++ ", " ++ r.toString ++ ")"
  | LtOp l r => "< (" ++ l.toString ++ ", " ++ r.toString ++ ")"
  | NeqOp l r => "!= (" ++ l.toString ++ ", " ++ r.toString ++ ")"
  | OrOp l r => "|| (" ++ l.toString ++ ", " ++ r.toString ++ ")"
  | EqOp l r => "== (" ++ l.toString ++ ", " ++ r.toString ++ ")"
  | NotOp c => "!(" ++ c.toString ++ ")"
  | SumOp c => "sum(" ++ c.toString ++ ")"
  | AvgOp c => "avg(" ++ c.toString ++ ")"

/-- `isAggregate` of every node kind: arithmetic nodes propagate from both
children, `sum`/`avg` return true unconditionally, and every other node kind
inherits the base-class default `false` (ExprTree.h line 43). -/
def isAggregate : ExprTree → Bool
  | MinusOp l r => l.isAggregate || r.isAggregate
  | PlusOp l r => l.isAggregate || r.isAggregate
  | TimesOp l r => l.isAggregate || r.isAggregate
  | DivideOp l r => l.isAggregate || r.isAggregate
  | SumOp _ => true
  | AvgOp _ => true
  | _ => false

/-- `getReferencedAttributes` of every node kind, threading the mutable
`std::set` as an explicit `Finset`: the identifier inserts its
(tableName, attName) pair, the four arithmetic nodes visit the left child
then the right child, and every other node kind inherits the base-class
default, which contributes nothing (ExprTree.h lines 45-47). -/
def getReferencedAttributes : ExprTree → Finset (String × String) → Finset (String × String)
  | Identifier t a, atts => insert (t, a) atts
  | MinusOp l r, atts => r.getReferencedAttributes (l.getReferencedAttributes atts)
  | PlusOp l r, atts => r.getReferencedAttributes (l.getReferencedAttributes atts)
  | TimesOp l r, atts => r.getReferencedAttributes (l.getReferencedAttributes atts)
  | DivideOp l r, atts => r.getReferencedAttributes (l.getReferencedAttributes atts)
  | _, atts => atts

/-- `typeCheck` of every node kind.  The returned pair is the inferred
`ReturnType` together with the list of diagnostic lines the source prints to
`cout`, in print order (children first, both children unconditionally, then
the node's own diagnostic if any). -/
def typeCheck : ExprTree → List (String × MyDB_Table) → List (String × String) →
    ReturnType × List String
  | BoolLiteral _, _, _ => (boolType, [])
  | DoubleLiteral _, _, _ => (doubleType, [])
  | IntLiteral _, _, _ => (intType, [])
  | StringLiteral _, _, _ => (stringType, [])
  | Identifier tableName attName, allTables, tablesToProcess =>
    match lookupAlias tablesToProcess tableName with
    | none =>
      (errType, ["ERROR: Table alias '" ++ tableName ++ "' not found in query"])
    | some actualTableName =>
      match lookupTable allTables actualTableName with
      | none =>
        (errType, ["ERROR: Table '" ++ actualTableName ++ "' not found in catalog"])
      | some table =>
        match table.getSchema.getAttByName attName with
        | none =>
          (errType,
            ["ERROR: Attribute '" ++ attName ++ "' not found in table '" ++ actualTableName])
        | some attInfo => (attTypeToReturnType attInfo.2, [])
  | MinusOp lhs rhs, allTables, tablesToProcess =>
    let lt := lhs.typeCheck allTables tablesToProcess
    let rt := rhs.typeCheck allTables tablesToProcess
    if lt.1 = errType ∨ rt.1 = errType then (errType, lt.2 ++ rt.2)
    else if lt.1 = stringType ∨ rt.1 = stringType then
      (errType, lt.2 ++ rt.2 ++ ["ERROR: Cannot subtract string values"])
    else if lt.1 = boolType ∨ rt.1 = boolType then
      (errType, lt.2 ++ rt.2 ++ ["ERROR: Cannot subtract bool values"])
    else if lt.1 = intType ∧ rt.1 = intType then (intType, lt.2 ++ rt.2)
    else (doubleType, lt.2 ++ rt.2)
  | PlusOp lhs rhs, allTables, tablesToProcess =>
    let lt := lhs.typeCheck allTables tablesToProcess
    let rt := rhs.typeCheck allTables tablesToProcess
    if lt.1 = errType ∨ rt.1 = errType then (errType, lt.2 ++ rt.2)
    else if lt.1 = stringType ∨ rt.1 = stringType then (stringType, lt.2 ++ rt.2)
    else if lt.1 = boolType ∨ rt.1 = boolType then
      (errType, lt.2 ++ rt.2 ++ ["ERROR: Cannot add bool values"])
    else if lt.1 = intType ∧ rt.1 = intType then (intType, lt.2 ++ rt.2)
    else (doubleType, lt.2 ++ rt.2)
  | TimesOp lhs rhs, allTables, tablesToProcess =>
    let lt := lhs.typeCheck allTables tablesToProcess
    let rt := rhs.typeCheck allTables tablesToProcess
    if lt.1 = errType ∨ rt.1 = errType then (errType, lt.2 ++ rt.2)
    else if lt.1 = stringType ∨ rt.1 = stringType then
      (errType, lt.2 ++ rt.2 ++ ["ERROR: Cannot multiply string values"])
    else if lt.1 = boolType ∨ rt.1 = boolType then
      (errType, lt.2 ++ rt.2 ++ ["ERROR: Cannot multiply bool values"])
    else if lt.1 = intType ∧ rt.1 = intType then (intType, lt.2 ++ rt.2)
    else (doubleType, lt.2 ++ rt.2)
  | DivideOp lhs rhs, allTables, tablesToProcess =>
    let lt := lhs.typeCheck allTables tablesToProcess
    let rt := rhs.typeCheck allTables tablesToProcess
    if lt.1 = errType ∨ rt.1 = errType then (errType, lt.2 ++ rt.2)
    else if lt.1 = stringType ∨ rt.1 = stringType then
      (errType, lt.2 ++ rt.2 ++ ["ERROR: Cannot divide string values"])
    else if lt.1 = boolType ∨ rt.1 = boolType then
      (errType, lt.2 ++ rt.2 ++ ["ERROR: Cannot divide bool values"])
    else (doubleType, lt.2 ++ rt.2)
  | GtOp lhs rhs, allTables, tablesToProcess =>
    let lt := lhs.typeCheck allTables tablesToProcess
    let rt := rhs.typeCheck allTables tablesToProcess
    if lt.1 = errType ∨ rt.1 = errType then (errType, lt.2 ++ rt.2)
    else if lt.1 = stringType ∨ rt.1 = stringType then
      if lt.1 ≠ rt.1 then
        (errType, lt.2 ++ rt.2 ++
          ["ERROR: Cannot compare incompatible types: left=" ++ typeToString lt.1 ++
            ", right=" ++ typeToString rt.1])
      else (boolType, lt.2 ++ rt.2)
    else if (lt.1 = intType ∨ lt.1 = doubleType) ∧ (rt.1 = intType ∨ rt.1 = doubleType) then
      (boolType, lt.2 ++ rt.2)
    else
      (errType, lt.2 ++ rt.2 ++
        ["ERROR: Cannot compare incompatible types: left=" ++ typeToString lt.1 ++
          ", right=" ++ typeToString rt.1])
  | LtOp lhs rhs, allTables, tablesToProcess =>
    let lt := lhs.typeCheck allTables tablesToProcess
    let rt := rhs.typeCheck allTables tablesToProcess
    if lt.1 = errType ∨ rt.1 = errType then (errType, lt.2 ++ rt.2)
    else if lt.1 = stringType ∨ rt.1 = stringType then
      if lt.1 ≠ rt.1 then
        (errType, lt.2 ++ rt.2 ++
          ["ERROR: Cannot compare incompatible types: left=" ++ typeToString lt.1 ++
            ", right=" ++ typeToString rt.1])
      else (boolType, lt.2 ++ rt.2)
    else if (lt.1 = intType ∨ lt.1 = doubleType) ∧ (rt.1 = intType ∨ rt.1 = doubleType) then
      (boolType, lt.2 ++ rt.2)
    else
      (errType, lt.2 ++ rt.2 ++
        ["ERROR: Cannot compare incompatible types: left=" ++ typeToString lt.1 ++
          ", right=" ++ typeToString rt.1])
  | NeqOp lhs rhs, allTables, tablesToProcess =>
    let lt := lhs.typeCheck allTables tablesToProcess
    let rt := rhs.typeCheck allTables tablesToProcess
    if lt.1 = errType ∨ rt.1 = errType then (errType, lt.2 ++ rt.2)
    else if lt.1 = stringType ∨ rt.1 = stringType then
      if lt.1 ≠ rt.1 then
        (errType, lt.2 ++ rt.2 ++
          ["ERROR: Cannot compare incompatible types: " ++ typeToString lt.1 ++
            ", right=" ++ typeToString rt.1])
      else (boolType, lt.2 ++ rt.2)
    else if (lt.1 = intType ∨ lt.1 = doubleType) ∧ (rt.1 = intType ∨ rt.1 = doubleType) then
      (boolType, lt.2 ++ rt.2)
    else
      (errType, lt.2 ++ rt.2 ++
        ["ERROR: Cannot compare incompatible types: left=" ++ typeToString lt.1 ++
          ", right=" ++ typeToString rt.1])
  | OrOp lhs rhs, allTables, tablesToProcess =>
    let lt := lhs.typeCheck allTables tablesToProcess
    let rt := rhs.typeCheck allTables tablesToProcess
    if lt.1 = errType ∨ rt.1 = errType then (errType, lt.2 ++ rt.2)
    else if lt.1 ≠ boolType ∨ rt.1 ≠ boolType then
      (errType, lt.2 ++ rt.2 ++
        ["ERROR: OR operator requires boolean operands, but got " ++ typeToString lt.1 ++
          " and " ++ typeToString rt.1 ++ "."])
    else (boolType, lt.2 ++ rt.2)
  | EqOp lhs rhs, allTables, tablesToProcess =>
    let lt := lhs.typeCheck allTables tablesToProcess
    let rt := rhs.typeCheck allTables tablesToProcess
    if lt.1 = errType ∨ rt.1 = errType then (errType, lt.2 ++ rt.2)
    else if lt.1 = stringType ∨ rt.1 = stringType then
      if lt.1 ≠ rt.1 then
        (errType, lt.2 ++ rt.2 ++
          ["ERROR: Cannot compare incompatible types: left=" ++ typeToString lt.1 ++
            ", right=" ++ typeToString rt.1])
      else (boolType, lt.2 ++ rt.2)
    else if (lt.1 = intType ∨ lt.1 = doubleType) ∧ (rt.1 = intType ∨ rt.1 = doubleType) then
      (boolType, lt.2 ++ rt.2)
    else
      (errType, lt.2 ++ rt.2 ++
        ["ERROR: Cannot compare incompatible types: left=" ++ typeToString lt.1 ++
          ", right=" ++ typeToString rt.1])
  | NotOp child, allTables, tablesToProcess =>
    let ct := child.typeCheck allTables tablesToProcess
    if ct.1 = errType then (errType, ct.2)
    else if ct.1 ≠ boolType then
      (errType, ct.2 ++
        ["ERROR: NOT operator requires a boolean expression, but got type " ++
          typeToString ct.1])
    else (boolType, ct.2)
  | SumOp child, allTables, tablesToProcess =>
    let ct := child.typeCheck allTables tablesToProcess
    if ct.1 = errType then (errType, ct.2)
    else if ct.1 = stringType ∨ ct.1 = boolType then
      (errType, ct.2 ++
        ["ERROR: Cannot apply SUM to non-numeric attribute: " ++ child.toString])
    else (ct.1, ct.2)
  | AvgOp child, allTables, tablesToProcess =>
    let ct := child.typeCheck allTables tablesToProcess
    if ct.1 = errType then (errType, ct.2)
    else if ct.1 = stringType ∨ ct.1 = boolType then
      (errType, ct.2 ++
        ["ERROR: Cannot apply AVG to non-numeric attribute: " ++ child.toString])
    else (doubleType, ct.2)

/-- The inferred type alone (the source's return value). -/
def typeOf (e : ExprTree) (allTables : List (String × MyDB_Table))
    (tablesToProcess : List (String × String)) : ReturnType :=
  (e.typeCheck allTables tablesToProcess).1

/-- The diagnostic lines alone (the source's `cout` output). -/
def logOf (e : ExprTree) (allTables : List (String × MyDB_Table))
    (tablesToProcess : List (String × String)) : List String :=
  (e.typeCheck allTables tablesToProcess).2

end ExprTree

end A5

namespace A5

open ReturnType ExprTree

/-- C1: error is infectious and unconditional — for every composite node
(arithmetic, comparison, or, not, sum, avg), if any child's `typeCheck`
returns `errType` then the node's `typeCheck` returns `errType`, and the
node's diagnostic output is exactly the concatenation of its children's
diagnostics (no diagnostic of its own: its operator's type rule is never
applied); both children of a binary node are type-checked even when the
left one is already `error`, so the right child's diagnostics still appear. -/
theorem typeCheck_error_is_infectious (cat : List (String × MyDB_Table))
    (bnds : List (String × String)) (l r c : ExprTree)
    (hlr : l.typeOf cat bnds = errType ∨ r.typeOf cat bnds = errType)
    (hc : c.typeOf cat bnds = errType) :
    (MinusOp l r).typeCheck cat bnds = (errType, l.logOf cat bnds ++ r.logOf cat bnds) ∧
    (PlusOp l r).typeCheck cat bnds = (errType, l.logOf cat bnds ++ r.logOf cat bnds) ∧
    (TimesOp l r).typeCheck cat bnds = (errType, l.logOf cat bnds ++ r.logOf cat bnds) ∧
    (DivideOp l r).typeCheck cat bnds = (errType, l.logOf cat bnds ++ r.logOf cat bnds) ∧
    (GtOp l r).typeCheck cat bnds = (errType, l.logOf cat bnds ++ r.logOf cat bnds) ∧
    (LtOp l r).typeCheck cat bnds = (errType, l.logOf cat bnds ++ r.logOf cat bnds) ∧
    (EqOp l r).typeCheck cat bnds = (errType, l.logOf cat bnds ++ r.logOf cat bnds) ∧
    (NeqOp l r).typeCheck cat bnds = (errType, l.logOf cat bnds ++ r.logOf cat bnds) ∧
    (OrOp l r).typeCheck cat bnds = (errType, l.logOf cat bnds ++ r.logOf cat bnds) ∧
    (NotOp c).typeCheck cat bnds = (errType, c.logOf cat bnds) ∧
    (SumOp c).typeCheck cat bnds = (errType, c.logOf cat bnds) ∧
    (AvgOp c).typeCheck cat bnds = (errType, c.logOf cat bnds) := by
  simp only [ExprTree.typeOf] at hlr hc
  refine ⟨?_, ?_, ?_, ?_, ?_, ?_, ?_, ?_, ?_, ?_, ?_, ?_⟩ <;>
    · simp only [ExprTree.typeCheck, ExprTree.logOf]
      rcases hlr with h | h <;> simp [h, hc]

/-- Witness for C1 at a concrete input: the left child `!(int[0])`
type-checks to `error`, and `- (!(int[0]), int[1])` propagates it while
keeping exactly the child diagnostics. -/
theorem typeCheck_error_is_infectious_witness :
    (MinusOp (NotOp (IntLiteral 0)) (IntLiteral 1)).typeCheck [] [] =
      (errType,
        (NotOp (IntLiteral 0)).logOf [] [] ++ (IntLiteral 1).logOf [] []) :=
  (typeCheck_error_is_infectious [] [] (NotOp (IntLiteral 0)) (IntLiteral 1)
    (NotOp (IntLiteral 0)) (Or.inl (by decide)) (by decide)).1


/-- C2: arithmetic typing rules for plus, minus, times and divide with
non-error children: a string operand makes minus/times/divide `error` but
makes plus `string`; a bool operand (with no string operand in plus's case)
makes all four `error`; for minus/times/plus over numerics, int with int
yields int and any double present yields double; a valid numeric divide
always yields double, never int. -/
theorem arithmetic_typing_rules (cat : List (String × MyDB_Table))
    (bnds : List (String × String)) (l r : ExprTree) (lt rt : ReturnType)
    (hl : l.typeOf cat bnds = lt) (hr : r.typeOf cat bnds = rt)
    (hlE : lt ≠ errType) (hrE : rt ≠ errType) :
    ((lt = stringType ∨ rt = stringType) →
      (MinusOp l r).typeOf cat bnds = errType ∧
      (TimesOp l r).typeOf cat bnds = errType ∧
      (DivideOp l r).typeOf cat bnds = errType ∧
      (PlusOp l r).typeOf cat bnds = stringType) ∧
    ((lt = boolType ∨ rt = boolType) →
      (MinusOp l r).typeOf cat bnds = errType ∧
      (TimesOp l r).typeOf cat bnds = errType ∧
      (DivideOp l r).typeOf cat bnds = errType ∧
      (lt ≠ stringType → rt ≠ stringType → (PlusOp l r).typeOf cat bnds = errType)) ∧
    (lt = intType → rt = intType →
      (MinusOp l r).typeOf cat bnds = intType ∧
      (TimesOp l r).typeOf cat bnds = intType ∧
      (PlusOp l r).typeOf cat bnds = intType) ∧
    ((lt = intType ∨ lt = doubleType) → (rt = intType ∨ rt = doubleType) →
      ((lt = doubleType ∨ rt = doubleType) →
        (MinusOp l r).typeOf cat bnds = doubleType ∧
        (TimesOp l r).typeOf cat bnds = doubleType ∧
        (PlusOp l r).typeOf cat bnds = doubleType) ∧
      (DivideOp l r).typeOf cat bnds = doubleType) := by
  simp only [ExprTree.typeOf] at hl hr ⊢
  refine ⟨?_, ?_, ?_, ?_⟩ <;>
    · simp only [ExprTree.typeCheck, hl, hr]
      cases lt <;> cases rt <;> simp_all

/-- Witness for C2 at a concrete input: dividing two int literals yields
double. -/
theorem arithmetic_typing_rules_witness :
    (DivideOp (IntLiteral 1) (IntLiteral 2)).typeOf [] [] = doubleType :=
  ((arithmetic_typing_rules [] [] (IntLiteral 1) (IntLiteral 2) intType intType
    (by decide) (by decide) (by decide) (by decide)).2.2.2
    (Or.inl rfl) (Or.inl rfl)).2

/-- C3: the four comparison nodes share one rule set over non-error
children: string compares only with string (yielding bool, otherwise
error); otherwise each side must be int or double, any numeric mix yielding
bool; any bool operand, or a numeric-versus-string mix, is an error. -/
theorem comparison_typing_rules (cat : List (String × MyDB_Table))
    (bnds : List (String × String)) (l r : ExprTree) (lt rt : ReturnType)
    (hl : l.typeOf cat bnds = lt) (hr : r.typeOf cat bnds = rt)
    (hlE : lt ≠ errType) (hrE : rt ≠ errType) :
    (lt = stringType → rt = stringType →
      (GtOp l r).typeOf cat bnds = boolType ∧
      (LtOp l r).typeOf cat bnds = boolType ∧
      (EqOp l r).typeOf cat bnds = boolType ∧
      (NeqOp l r).typeOf cat bnds = boolType) ∧
    ((lt = stringType ∨ rt = stringType) → lt ≠ rt →
      (GtOp l r).typeOf cat bnds = errType ∧
      (LtOp l r).typeOf cat bnds = errType ∧
      (EqOp l r).typeOf cat bnds = errType ∧
      (NeqOp l r).typeOf cat bnds = errType) ∧
    ((lt = intType ∨ lt = doubleType) → (rt = intType ∨ rt = doubleType) →
      (GtOp l r).typeOf cat bnds = boolType ∧
      (LtOp l r).typeOf cat bnds = boolType ∧
      (EqOp l r).typeOf cat bnds = boolType ∧
      (NeqOp l r).typeOf cat bnds = boolType) ∧
    ((lt = boolType ∨ rt = boolType) →
      (GtOp l r).typeOf cat bnds = errType ∧
      (LtOp l r).typeOf cat bnds = errType ∧
      (EqOp l r).typeOf cat bnds = errType ∧
      (NeqOp l r).typeOf cat bnds = errType) := by
  simp only [ExprTree.typeOf] at hl hr ⊢
  refine ⟨?_, ?_, ?_, ?_⟩ <;>
    · simp only [ExprTree.typeCheck, hl, hr]
      cases lt <;> cases rt <;> simp_all

/-- Witness for C3 at a concrete input: `> (string[abc], int[5])`
type-checks to error, and `> (int[5], int[5])` to bool. -/
theorem comparison_typing_rules_witness :
    (GtOp (StringLiteral "abc") (IntLiteral 5)).typeOf [] [] = errType :=
  ((comparison_typing_rules [] [] (StringLiteral "abc") (IntLiteral 5)
    stringType intType (by decide) (by decide) (by decide) (by decide)).2.1
    (Or.inl rfl) (by decide)).1

/-- C4: for sum and avg, a string or bool child type yields error, and an
error child propagates; a numeric child makes sum return the child type
itself (int stays int, double stays double) while avg always returns
double; and `isAggregate` of both is unconditionally true. -/
theorem aggregate_typing_rules (cat : List (String × MyDB_Table))
    (bnds : List (String × String)) (c : ExprTree) (ct : ReturnType)
    (hc : c.typeOf cat bnds = ct) :
    ((ct = stringType ∨ ct = boolType ∨ ct = errType) →
      (SumOp c).typeOf cat bnds = errType ∧
      (AvgOp c).typeOf cat bnds = errType) ∧
    ((ct = intType ∨ ct = doubleType) →
      (SumOp c).typeOf cat bnds = ct ∧
      (AvgOp c).typeOf cat bnds = doubleType) ∧
    (SumOp c).isAggregate = true ∧
    (AvgOp c).isAggregate = true := by
  simp only [ExprTree.typeOf] at hc ⊢
  refine ⟨?_, ?_, rfl, rfl⟩ <;>
    · simp only [ExprTree.typeCheck, hc]
      cases ct <;> simp_all

/-- Witness for C4 at a concrete input: `sum(bool[true])` is an error and
`sum(int[3])` stays int. -/
theorem aggregate_typing_rules_witness :
    (SumOp (IntLiteral 3)).typeOf [] [] = intType :=
  ((aggregate_typing_rules [] [] (IntLiteral 3) intType (by decide)).2.1
    (Or.inl rfl)).1

/-- C10: type-check imposes no restriction on nesting aggregates: for any
subtree whose type is int or double, `sum(sum(x))` type-checks to x's own
type and `avg(sum(x))` type-checks to double — an aggregate child is
accepted by sum/avg exactly like any other numeric child. -/
theorem nested_aggregates_accepted (cat : List (String × MyDB_Table))
    (bnds : List (String × String)) (x : ExprTree)
    (hx : x.typeOf cat bnds = intType ∨ x.typeOf cat bnds = doubleType) :
    (SumOp (SumOp x)).typeOf cat bnds = x.typeOf cat bnds ∧
    (AvgOp (SumOp x)).typeOf cat bnds = doubleType := by
  simp only [ExprTree.typeOf] at hx ⊢
  rcases hx with h | h <;> simp [ExprTree.typeCheck, h]

/-- Witness for C10 at a concrete input: `sum(sum(int[1]))` is int and
`avg(sum(int[1]))` is double. -/
theorem nested_aggregates_accepted_witness :
    (SumOp (SumOp (IntLiteral 1))).typeOf [] [] = (IntLiteral 1).typeOf [] [] ∧
    (AvgOp (SumOp (IntLiteral 1))).typeOf [] [] = doubleType :=
  nested_aggregates_accepted [] [] (IntLiteral 1) (Or.inl (by decide))


/-- If no binding pair carries the alias, the alias scan finds nothing. -/
theorem lookupAlias_eq_none {bnds : List (String × String)} {a : String}
    (h : ∀ p ∈ bnds, p.2 ≠ a) : lookupAlias bnds a = none := by
  induction bnds with
  | nil => rfl
  | cons p rest ih =>
    simp only [lookupAlias]
    rw [if_neg (h p (by simp))]
    exact ih fun q hq => h q (by simp [hq])

/-- The alias scan resolves to the first pair carrying the alias, however
many further pairs (with the same alias or not) follow it. -/
theorem lookupAlias_first_match {pre post : List (String × String)}
    {a tbl : String} (h : ∀ p ∈ pre, p.2 ≠ a) :
    lookupAlias (pre ++ (tbl, a) :: post) a = some tbl := by
  induction pre with
  | nil => simp [lookupAlias]
  | cons p rest ih =>
    simp only [List.cons_append, lookupAlias]
    rw [if_neg (h p (by simp))]
    exact ih fun q hq => h q (by simp [hq])

/-- If no catalog entry carries the table name, the catalog lookup finds
nothing. -/
theorem lookupTable_eq_none {cat : List (String × MyDB_Table)} {tbl : String}
    (h : ∀ q ∈ cat, q.1 ≠ tbl) : lookupTable cat tbl = none := by
  induction cat with
  | nil => rfl
  | cons q rest ih =>
    simp only [lookupTable]
    rw [if_neg (h q (by simp))]
    exact ih fun p hp => h p (by simp [hp])

/-- If no schema entry carries the attribute name, the schema scan finds
nothing, from any starting position. -/
theorem getAttByName_go_eq_none {atts : List (String × MyDB_AttType)}
    {att : String} (h : ∀ q ∈ atts, q.1 ≠ att) (i : Nat) :
    MyDB_Schema.getAttByName.go att i atts = none := by
  induction atts generalizing i with
  | nil => rfl
  | cons q rest ih =>
    simp only [MyDB_Schema.getAttByName.go]
    rw [if_neg (h q (by simp))]
    exact ih (fun p hp => h p (by simp [hp])) (i + 1)

/-- C5: identifier resolution order — the alias bindings are scanned in
order and the first pair whose alias matches wins (later duplicates are
ignored); with no matching binding the result is error regardless of the
catalog; with a resolved table name absent from the catalog the result is
error; with the table found but the attribute absent from its schema the
result is error; and with the attribute found, the result is exactly the
`ReturnType` its attribute type maps to. -/
theorem identifier_resolution_order
    (cat : List (String × MyDB_Table)) (bnds : List (String × String))
    (a att tbl : String) (table : MyDB_Table) :
    ((∀ p ∈ bnds, p.2 ≠ a) → ∀ anyCat : List (String × MyDB_Table),
      (Identifier a att).typeCheck anyCat bnds =
        (errType, ["ERROR: Table alias '" ++ a ++ "' not found in query"])) ∧
    (∀ (pre post : List (String × String)) (tbl2 : String),
      (∀ p ∈ pre, p.2 ≠ a) →
      (Identifier a att).typeCheck cat (pre ++ (tbl2, a) :: post) =
        (Identifier a att).typeCheck cat [(tbl2, a)]) ∧
    ((∀ q ∈ cat, q.1 ≠ tbl) →
      (Identifier a att).typeCheck cat [(tbl, a)] =
        (errType, ["ERROR: Table '" ++ tbl ++ "' not found in catalog"])) ∧
    (lookupTable cat tbl = some table →
      (∀ q ∈ table.schema.atts, q.1 ≠ att) →
      (Identifier a att).typeCheck cat [(tbl, a)] =
        (errType,
          ["ERROR: Attribute '" ++ att ++ "' not found in table '" ++ tbl])) ∧
    (lookupTable cat tbl = some table →
      ∀ (i : Nat) (ty : MyDB_AttType),
      table.getSchema.getAttByName att = some (i, ty) →
      (Identifier a att).typeCheck cat [(tbl, a)] =
        (attTypeToReturnType ty, [])) := by
  refine ⟨?_, ?_, ?_, ?_, ?_⟩
  · intro h anyCat
    simp [ExprTree.typeCheck, lookupAlias_eq_none h]
  · intro pre post tbl2 h
    simp [ExprTree.typeCheck, lookupAlias_first_match h, lookupAlias]
  · intro h
    simp [ExprTree.typeCheck, lookupAlias, lookupTable_eq_none h]
  · intro hT h
    simp [ExprTree.typeCheck, lookupAlias, hT, MyDB_Table.getSchema,
      MyDB_Schema.getAttByName, getAttByName_go_eq_none h 0]
  · intro hT i ty hA
    simp [ExprTree.typeCheck, lookupAlias, hT, hA]

/-- Witness for C5 at a concrete input: with bindings
`[("Orders","o"), ("X","o")]` the duplicate alias `o` resolves to the first
pair, behaving exactly like the single binding `[("Orders","o")]`. -/
theorem identifier_resolution_order_witness :
    (Identifier "o" "amount").typeCheck
        [("Orders", ⟨⟨[("amount", ⟨false, "double"⟩)]⟩⟩)]
        ([] ++ ("Orders", "o") :: [("X", "o")]) =
      (Identifier "o" "amount").typeCheck
        [("Orders", ⟨⟨[("amount", ⟨false, "double"⟩)]⟩⟩)] [("Orders", "o")] :=
  (identifier_resolution_order
      [("Orders", ⟨⟨[("amount", ⟨false, "double"⟩)]⟩⟩)] [] "o" "amount" "X"
      ⟨⟨[]⟩⟩).2.1 [] [("X", "o")] "Orders" (by decide)

/-- C6: comparison and boolean nodes do not propagate — for gt, lt, eq,
neq, or and not, `isAggregate` is false whatever the children are, and
`getReferencedAttributes` leaves the accumulated set unchanged whatever
attribute references the children contain: these six node kinds inherit
the base-class defaults. -/
theorem comparisons_booleans_inherit_defaults (l r c : ExprTree)
    (atts : Finset (String × String)) :
    (GtOp l r).isAggregate = false ∧
    (LtOp l r).isAggregate = false ∧
    (EqOp l r).isAggregate = false ∧
    (NeqOp l r).isAggregate = false ∧
    (OrOp l r).isAggregate = false ∧
    (NotOp c).isAggregate = false ∧
    (GtOp l r).getReferencedAttributes atts = atts ∧
    (LtOp l r).getReferencedAttributes atts = atts ∧
    (EqOp l r).getReferencedAttributes atts = atts ∧
    (NeqOp l r).getReferencedAttributes atts = atts ∧
    (OrOp l r).getReferencedAttributes atts = atts ∧
    (NotOp c).getReferencedAttributes atts = atts :=
  ⟨rfl, rfl, rfl, rfl, rfl, rfl, rfl, rfl, rfl, rfl, rfl, rfl⟩


/-- The attribute-reference pairs structurally present anywhere in a tree
(spec-side notion of "containing" an attribute reference). -/
def ExprTree.identsOf : ExprTree → Finset (String × String)
  | Identifier t a => {(t, a)}
  | MinusOp l r => l.identsOf ∪ r.identsOf
  | PlusOp l r => l.identsOf ∪ r.identsOf
  | TimesOp l r => l.identsOf ∪ r.identsOf
  | DivideOp l r => l.identsOf ∪ r.identsOf
  | GtOp l r => l.identsOf ∪ r.identsOf
  | LtOp l r => l.identsOf ∪ r.identsOf
  | NeqOp l r => l.identsOf ∪ r.identsOf
  | OrOp l r => l.identsOf ∪ r.identsOf
  | EqOp l r => l.identsOf ∪ r.identsOf
  | NotOp c => c.identsOf
  | SumOp c => c.identsOf
  | AvgOp c => c.identsOf
  | _ => ∅

/-- Trees whose interior nodes are exclusively the four arithmetic kinds
(plus, minus, times, divide), over arbitrary leaves. -/
def ExprTree.arithTree : ExprTree → Bool
  | MinusOp l r => l.arithTree && r.arithTree
  | PlusOp l r => l.arithTree && r.arithTree
  | TimesOp l r => l.arithTree && r.arithTree
  | DivideOp l r => l.arithTree && r.arithTree
  | GtOp _ _ => false
  | LtOp _ _ => false
  | NeqOp _ _ => false
  | OrOp _ _ => false
  | EqOp _ _ => false
  | NotOp _ => false
  | SumOp _ => false
  | AvgOp _ => false
  | _ => true

/-- Over a tree whose interior nodes are all arithmetic,
`getReferencedAttributes` adds exactly the structurally present
attribute-reference pairs to the accumulated set. -/
theorem getReferencedAttributes_arithTree {e : ExprTree}
    (h : e.arithTree = true) (s : Finset (String × String)) :
    e.getReferencedAttributes s = s ∪ e.identsOf := by
  induction e generalizing s with
  | BoolLiteral b => simp [ExprTree.getReferencedAttributes, ExprTree.identsOf]
  | DoubleLiteral v => simp [ExprTree.getReferencedAttributes, ExprTree.identsOf]
  | IntLiteral n => simp [ExprTree.getReferencedAttributes, ExprTree.identsOf]
  | StringLiteral v => simp [ExprTree.getReferencedAttributes, ExprTree.identsOf]
  | Identifier t a =>
    simp only [ExprTree.getReferencedAttributes, ExprTree.identsOf]
    rw [Finset.union_comm, ← Finset.insert_eq]
  | MinusOp l r ihl ihr =>
    simp only [ExprTree.arithTree, Bool.and_eq_true] at h
    simp [ExprTree.getReferencedAttributes, ExprTree.identsOf,
      ihl h.1, ihr h.2, Finset.union_assoc]
  | PlusOp l r ihl ihr =>
    simp only [ExprTree.arithTree, Bool.and_eq_true] at h
    simp [ExprTree.getReferencedAttributes, ExprTree.identsOf,
      ihl h.1, ihr h.2, Finset.union_assoc]
  | TimesOp l r ihl ihr =>
    simp only [ExprTree.arithTree, Bool.and_eq_true] at h
    simp [ExprTree.getReferencedAttributes, ExprTree.identsOf,
      ihl h.1, ihr h.2, Finset.union_assoc]
  | DivideOp l r ihl ihr =>
    simp only [ExprTree.arithTree, Bool.and_eq_true] at h
    simp [ExprTree.getReferencedAttributes, ExprTree.identsOf,
      ihl h.1, ihr h.2, Finset.union_assoc]
  | GtOp l r ihl ihr => simp [ExprTree.arithTree] at h
  | LtOp l r ihl ihr => simp [ExprTree.arithTree] at h
  | NeqOp l r ihl ihr => simp [ExprTree.arithTree] at h
  | OrOp l r ihl ihr => simp [ExprTree.arithTree] at h
  | EqOp l r ihl ihr => simp [ExprTree.arithTree] at h
  | NotOp c ih => simp [ExprTree.arithTree] at h
  | SumOp c ih => simp [ExprTree.arithTree] at h
  | AvgOp c ih => simp [ExprTree.arithTree] at h

/-- Counterexample to C7 as stated: the tree
`+ (sum([o_a]), [c_b])` contains the attribute references `[o_a]` and
`[c_b]` beneath arithmetic and aggregate nodes, yet
`getReferencedAttributes` returns only `{(c,b)}` — the reference beneath
the aggregate is dropped, because `SumOp`/`AvgOp` do not override the
no-op base-class default. -/
theorem collect_refs_drops_aggregate_children :
    (PlusOp (SumOp (Identifier "o" "a")) (Identifier "c" "b")).identsOf =
      {("o", "a"), ("c", "b")} ∧
    (PlusOp (SumOp (Identifier "o" "a"))
        (Identifier "c" "b")).getReferencedAttributes ∅ = {("c", "b")} ∧
    (PlusOp (SumOp (Identifier "o" "a"))
        (Identifier "c" "b")).getReferencedAttributes ∅ ≠
      {("o", "a"), ("c", "b")} := by
  refine ⟨by decide, by decide, by decide⟩

/-- C7 (amended): for every tree whose interior nodes are all arithmetic
(plus/minus/times/divide) and whose structurally present attribute
references are exactly `[o_a]` and `[c_b]`, `getReferencedAttributes` on
the root returns exactly `{(o,a), (c,b)}`; nodes that are not arithmetic
(in particular sum/avg) do not recurse, so references beneath them are
dropped. -/
theorem collect_refs_exact_over_arithmetic (e : ExprTree) (o a c b : String)
    (hA : e.arithTree = true)
    (hI : e.identsOf = {(o, a), (c, b)}) :
    e.getReferencedAttributes ∅ = {(o, a), (c, b)} := by
  rw [getReferencedAttributes_arithTree hA, hI]
  simp

/-- Witness for the amended C7 at a concrete input:
`+ ([o_a], [c_b])` collects exactly both pairs. -/
theorem collect_refs_exact_over_arithmetic_witness :
    (PlusOp (Identifier "o" "a") (Identifier "c" "b")).getReferencedAttributes ∅ =
      {("o", "a"), ("c", "b")} :=
  collect_refs_exact_over_arithmetic
    (PlusOp (Identifier "o" "a") (Identifier "c" "b")) "o" "a" "c" "b"
    (by decide) (by decide)


/-- Counterexample to C8 as stated: in a catalog whose table `T` has an
attribute `x` of a non-boolean type whose canonical name `blob` matches
none of int/double/string, the identifier `[t_x]` fails its own rule
(the attribute-type mapping) yet emits no diagnostic at all — `typeCheck`
returns `error` with an empty message list. -/
theorem identifier_unrecognized_type_silent :
    (Identifier "t" "x").typeCheck
        [("T", ⟨⟨[("x", ⟨false, "blob"⟩)]⟩⟩)] [("T", "t")] =
      (errType, []) := by decide

/-- C8 (amended): every typeCheck failure detected at a node's own rule
(children non-error, node error) emits exactly one diagnostic message of
its own after its children's messages — except the Identifier case where
alias, table and attribute all resolve but the attribute's type is
non-boolean and its canonical name matches none of int/double/string,
which returns error with no diagnostic. -/
theorem own_rule_failures_emit_diagnostics
    (cat : List (String × MyDB_Table)) (bnds : List (String × String))
    (l r c : ExprTree) (lt rt ct : ReturnType)
    (hl : l.typeOf cat bnds = lt) (hr : r.typeOf cat bnds = rt)
    (hc : c.typeOf cat bnds = ct)
    (hlE : lt ≠ errType) (hrE : rt ≠ errType) (hcE : ct ≠ errType) :
    ((MinusOp l r).typeOf cat bnds = errType →
      ∃ m, (MinusOp l r).logOf cat bnds =
        l.logOf cat bnds ++ r.logOf cat bnds ++ [m]) ∧
    ((PlusOp l r).typeOf cat bnds = errType →
      ∃ m, (PlusOp l r).logOf cat bnds =
        l.logOf cat bnds ++ r.logOf cat bnds ++ [m]) ∧
    ((TimesOp l r).typeOf cat bnds = errType →
      ∃ m, (TimesOp l r).logOf cat bnds =
        l.logOf cat bnds ++ r.logOf cat bnds ++ [m]) ∧
    ((DivideOp l r).typeOf cat bnds = errType →
      ∃ m, (DivideOp l r).logOf cat bnds =
        l.logOf cat bnds ++ r.logOf cat bnds ++ [m]) ∧
    ((GtOp l r).typeOf cat bnds = errType →
      ∃ m, (GtOp l r).logOf cat bnds =
        l.logOf cat bnds ++ r.logOf cat bnds ++ [m]) ∧
    ((LtOp l r).typeOf cat bnds = errType →
      ∃ m, (LtOp l r).logOf cat bnds =
        l.logOf cat bnds ++ r.logOf cat bnds ++ [m]) ∧
    ((EqOp l r).typeOf cat bnds = errType →
      ∃ m, (EqOp l r).logOf cat bnds =
        l.logOf cat bnds ++ r.logOf cat bnds ++ [m]) ∧
    ((NeqOp l r).typeOf cat bnds = errType →
      ∃ m, (NeqOp l r).logOf cat bnds =
        l.logOf cat bnds ++ r.logOf cat bnds ++ [m]) ∧
    ((OrOp l r).typeOf cat bnds = errType →
      ∃ m, (OrOp l r).logOf cat bnds =
        l.logOf cat bnds ++ r.logOf cat bnds ++ [m]) ∧
    ((NotOp c).typeOf cat bnds = errType →
      ∃ m, (NotOp c).logOf cat bnds = c.logOf cat bnds ++ [m]) ∧
    ((SumOp c).typeOf cat bnds = errType →
      ∃ m, (SumOp c).logOf cat bnds = c.logOf cat bnds ++ [m]) ∧
    ((AvgOp c).typeOf cat bnds = errType →
      ∃ m, (AvgOp c).logOf cat bnds = c.logOf cat bnds ++ [m]) ∧
    (∀ a att, (Identifier a att).typeOf cat bnds = errType →
      (Identifier a att).logOf cat bnds ≠ [] ∨
      (∃ (tbl : String) (table : MyDB_Table) (i : Nat) (ty : MyDB_AttType),
        lookupAlias bnds a = some tbl ∧
        lookupTable cat tbl = some table ∧
        table.getSchema.getAttByName att = some (i, ty) ∧
        attTypeToReturnType ty = errType ∧
        (Identifier a att).logOf cat bnds = [])) := by
  simp only [ExprTree.typeOf] at hl hr hc
  refine ⟨?_, ?_, ?_, ?_, ?_, ?_, ?_, ?_, ?_, ?_, ?_, ?_, ?_⟩
  · intro hErr
    simp only [ExprTree.typeOf, ExprTree.typeCheck, ExprTree.logOf, hl, hr]
      at hErr ⊢
    cases lt <;> cases rt <;> simp_all
  · intro hErr
    simp only [ExprTree.typeOf, ExprTree.typeCheck, ExprTree.logOf, hl, hr]
      at hErr ⊢
    cases lt <;> cases rt <;> simp_all
  · intro hErr
    simp only [ExprTree.typeOf, ExprTree.typeCheck, ExprTree.logOf, hl, hr]
      at hErr ⊢
    cases lt <;> cases rt <;> simp_all
  · intro hErr
    simp only [ExprTree.typeOf, ExprTree.typeCheck, ExprTree.logOf, hl, hr]
      at hErr ⊢
    cases lt <;> cases rt <;> simp_all
  · intro hErr
    simp only [ExprTree.typeOf, ExprTree.typeCheck, ExprTree.logOf, hl, hr]
      at hErr ⊢
    cases lt <;> cases rt <;> simp_all
  · intro hErr
    simp only [ExprTree.typeOf, ExprTree.typeCheck, ExprTree.logOf, hl, hr]
      at hErr ⊢
    cases lt <;> cases rt <;> simp_all
  · intro hErr
    simp only [ExprTree.typeOf, ExprTree.typeCheck, ExprTree.logOf, hl, hr]
      at hErr ⊢
    cases lt <;> cases rt <;> simp_all
  · intro hErr
    simp only [ExprTree.typeOf, ExprTree.typeCheck, ExprTree.logOf, hl, hr]
      at hErr ⊢
    cases lt <;> cases rt <;> simp_all
  · intro hErr
    simp only [ExprTree.typeOf, ExprTree.typeCheck, ExprTree.logOf, hl, hr]
      at hErr ⊢
    cases lt <;> cases rt <;> simp_all
  · intro hErr
    simp only [ExprTree.typeOf, ExprTree.typeCheck, ExprTree.logOf, hc]
      at hErr ⊢
    cases ct <;> simp_all
  · intro hErr
    simp only [ExprTree.typeOf, ExprTree.typeCheck, ExprTree.logOf, hc]
      at hErr ⊢
    cases ct <;> simp_all
  · intro hErr
    simp only [ExprTree.typeOf, ExprTree.typeCheck, ExprTree.logOf, hc]
      at hErr ⊢
    cases ct <;> simp_all
  · intro a att hErr
    rcases h1 : lookupAlias bnds a with _ | tbl
    · exact Or.inl (by simp [ExprTree.logOf, ExprTree.typeCheck, h1])
    · rcases h2 : lookupTable cat tbl with _ | table
      · exact Or.inl (by simp [ExprTree.logOf, ExprTree.typeCheck, h1, h2])
      · rcases h3 : table.getSchema.getAttByName att with _ | ⟨i, ty⟩
        · exact Or.inl (by simp [ExprTree.logOf, ExprTree.typeCheck, h1, h2, h3])
        · refine Or.inr ⟨tbl, table, i, ty, by simp [h1], by simp [h2],
            by simp [h3], ?_, ?_⟩
          · simpa [ExprTree.typeOf, ExprTree.typeCheck, h1, h2, h3] using hErr
          · simp [ExprTree.logOf, ExprTree.typeCheck, h1, h2, h3]

/-- Witness for the amended C8 at a concrete input: `- (int[1], bool[true])`
fails the subtraction rule and emits its own diagnostic after the (empty)
child diagnostics. -/
theorem own_rule_failures_emit_diagnostics_witness :
    ∃ m, (MinusOp (IntLiteral 1) (BoolLiteral true)).logOf [] [] =
      (IntLiteral 1).logOf [] [] ++ (BoolLiteral true).logOf [] [] ++ [m] :=
  (own_rule_failures_emit_diagnostics [] [] (IntLiteral 1) (BoolLiteral true)
    (IntLiteral 1) intType boolType intType (by decide) (by decide) (by decide)
    (by decide) (by decide) (by decide)).1 (by decide)


theorem digitChar_toNat {d : Nat} (h : d < 10) : (digitChar d).toNat = 48 + d := by
  interval_cases d <;> rfl

theorem digitChar_toNat_bounds {d : Nat} (h : d < 10) :
    48 ≤ (digitChar d).toNat ∧ (digitChar d).toNat ≤ 57 := by
  rw [digitChar_toNat h]; omega

theorem natChars_toNat_bounds (n : Nat) :
    ∀ c ∈ natChars n, 48 ≤ c.toNat ∧ c.toNat ≤ 57 := by
  induction n using Nat.strong_induction_on with
  | _ n ih =>
    intro c hc
    rw [natChars] at hc
    split at hc
    · next h =>
      simp only [List.mem_singleton] at hc
      subst hc
      exact digitChar_toNat_bounds h
    · next h =>
      rcases List.mem_append.1 hc with h1 | h1
      · exact ih (n / 10) (Nat.div_lt_self (by omega) (by omega)) c h1
      · simp only [List.mem_singleton] at h1
        subst h1
        exact digitChar_toNat_bounds (Nat.mod_lt _ (by omega))

theorem rbracket_notMem_natChars (n : Nat) : ']' ∉ natChars n := by
  intro hmem
  have := natChars_toNat_bounds n ']' hmem
  simp at this

theorem minus_notMem_natChars (n : Nat) : '-' ∉ natChars n := by
  intro hmem
  have := natChars_toNat_bounds n '-' hmem
  simp at this

theorem natChars_ne_nil (n : Nat) : natChars n ≠ [] := by
  rw [natChars]
  split <;> simp

theorem digitsVal_natChars_aux (n : Nat) : ∀ a : Nat,
    List.foldl (fun acc c => 10 * acc + (c.toNat - 48)) a (natChars n) =
      a * 10 ^ (natChars n).length + n := by
  induction n using Nat.strong_induction_on with
  | _ n ih =>
    intro a
    rw [natChars]
    split
    · next h =>
      simp only [List.foldl_cons, List.foldl_nil, List.length_singleton,
        pow_one, digitChar_toNat h]
      omega
    · next h =>
      rw [List.foldl_append, ih (n / 10) (Nat.div_lt_self (by omega) (by omega)) a]
      simp only [List.foldl_cons, List.foldl_nil, List.length_append,
        List.length_singleton, digitChar_toNat (Nat.mod_lt n (by omega))]
      rw [pow_succ]
      have hdm := Nat.div_add_mod n 10
      have hge : 48 + n % 10 - 48 = n % 10 := by omega
      rw [hge]
      ring_nf
      omega

theorem natChars_inj {m n : Nat} (h : natChars m = natChars n) : m = n := by
  have hm := digitsVal_natChars_aux m 0
  have hn := digitsVal_natChars_aux n 0
  rw [h] at hm
  omega

theorem intChars_inj {i j : Int} (h : intChars i = intChars j) : i = j := by
  cases i with
  | ofNat m =>
    cases j with
    | ofNat n => exact congrArg Int.ofNat (natChars_inj h)
    | negSucc n =>
      exfalso
      simp only [intChars] at h
      have := minus_notMem_natChars m
      rw [h] at this
      exact this (List.mem_cons_self _ _)
  | negSucc m =>
    cases j with
    | ofNat n =>
      exfalso
      simp only [intChars] at h
      have := minus_notMem_natChars n
      rw [← h] at this
      exact this (List.mem_cons_self _ _)
    | negSucc n =>
      simp only [intChars, List.cons.injEq, true_and] at h
      have := natChars_inj h
      have h2 : m = n := by omega
      rw [h2]

theorem rbracket_notMem_intChars (i : Int) : ']' ∉ intChars i := by
  cases i with
  | ofNat m => exact rbracket_notMem_natChars m
  | negSucc m =>
    simp only [intChars, List.mem_cons]
    rintro (h | h)
    · exact absurd h.symm (by decide)
    · exact rbracket_notMem_natChars _ h

/-- Unique decomposition of a list at a separator character absent from
both leading segments. -/
theorem append_split_at_sep {A B s t : List Char} {sep : Char}
    (hA : sep ∉ A) (hB : sep ∉ B)
    (h : A ++ sep :: s = B ++ sep :: t) : A = B ∧ s = t := by
  induction A generalizing B with
  | nil =>
    cases B with
    | nil => simpa using h
    | cons b bs =>
      exfalso
      simp only [List.nil_append, List.cons_append, List.cons.injEq] at h
      exact hB (h.1 ▸ List.mem_cons_self _ _)
  | cons a as ih =>
    cases B with
    | nil =>
      exfalso
      simp only [List.nil_append, List.cons_append, List.cons.injEq] at h
      exact hA (h.1.symm ▸ List.mem_cons_self _ _)
    | cons b bs =>
      simp only [List.cons_append, List.cons.injEq] at h
      obtain ⟨rfl, h2⟩ := h
      have := ih (fun hm => hA (List.mem_cons_of_mem _ hm))
        (fun hm => hB (List.mem_cons_of_mem _ hm)) h2
      exact ⟨by rw [this.1], this.2⟩


/-- The character sequence of a node's rendering, in a list form convenient
for decomposition arguments; `toString_data` below ties it to `toString`. -/
def ExprTree.renderChars : ExprTree → List Char
  | BoolLiteral b =>
    'b' :: 'o' :: 'o' :: 'l' :: '[' ::
      ((if b then ['t', 'r', 'u', 'e'] else ['f', 'a', 'l', 's', 'e']) ++ [']'])
  | DoubleLiteral v => "double[".data ++ v.toString.data ++ [']']
  | IntLiteral n => 'i' :: 'n' :: 't' :: '[' :: (intChars n ++ [']'])
  | StringLiteral v => 's' :: 't' :: 'r' :: 'i' :: 'n' :: 'g' :: '[' :: (v.data ++ [']'])
  | Identifier t a => '[' :: (t.data ++ '_' :: (a.data ++ [']']))
  | MinusOp l r => '-' :: ' ' :: '(' :: (l.renderChars ++ ',' :: ' ' :: (r.renderChars ++ [')']))
  | PlusOp l r => '+' :: ' ' :: '(' :: (l.renderChars ++ ',' :: ' ' :: (r.renderChars ++ [')']))
  | TimesOp l r => '*' :: ' ' :: '(' :: (l.renderChars ++ ',' :: ' ' :: (r.renderChars ++ [')']))
  | DivideOp l r => '/' :: ' ' :: '(' :: (l.renderChars ++ ',' :: ' ' :: (r.renderChars ++ [')']))
  | GtOp l r => '>' :: ' ' :: '(' :: (l.renderChars ++ ',' :: ' ' :: (r.renderChars ++ [')']))
  | LtOp l r => '<' :: ' ' :: '(' :: (l.renderChars ++ ',' :: ' ' :: (r.renderChars ++ [')']))
  | NeqOp l r => '!' :: '=' :: ' ' :: '(' :: (l.renderChars ++ ',' :: ' ' :: (r.renderChars ++ [')']))
  | OrOp l r => '|' :: '|' :: ' ' :: '(' :: (l.renderChars ++ ',' :: ' ' :: (r.renderChars ++ [')']))
  | EqOp l r => '=' :: '=' :: ' ' :: '(' :: (l.renderChars ++ ',' :: ' ' :: (r.renderChars ++ [')']))
  | NotOp c => '!' :: '(' :: (c.renderChars ++ [')'])
  | SumOp c => 's' :: 'u' :: 'm' :: '(' :: (c.renderChars ++ [')'])
  | AvgOp c => 'a' :: 'v' :: 'g' :: '(' :: (c.renderChars ++ [')'])

/-- `renderChars` is `toString`, character by character. -/
theorem ExprTree.toString_data (e : ExprTree) : e.toString.data = e.renderChars := by
  induction e with
  | BoolLiteral b =>
    cases b <;> simp [ExprTree.toString, ExprTree.renderChars]
  | DoubleLiteral v =>
    simp [ExprTree.toString, ExprTree.renderChars, String.data_append]
  | IntLiteral n =>
    simp [ExprTree.toString, ExprTree.renderChars, String.data_append]
  | StringLiteral v =>
    simp [ExprTree.toString, ExprTree.renderChars, String.data_append]
  | Identifier t a =>
    simp [ExprTree.toString, ExprTree.renderChars, String.data_append]
  | MinusOp l r ihl ihr =>
    simp [ExprTree.toString, ExprTree.renderChars, String.data_append, ihl, ihr]
  | PlusOp l r ihl ihr =>
    simp [ExprTree.toString, ExprTree.renderChars, String.data_append, ihl, ihr]
  | TimesOp l r ihl ihr =>
    simp [ExprTree.toString, ExprTree.renderChars, String.data_append, ihl, ihr]
  | DivideOp l r ihl ihr =>
    simp [ExprTree.toString, ExprTree.renderChars, String.data_append, ihl, ihr]
  | GtOp l r ihl ihr =>
    simp [ExprTree.toString, ExprTree.renderChars, String.data_append, ihl, ihr]
  | LtOp l r ihl ihr =>
    simp [ExprTree.toString, ExprTree.renderChars, String.data_append, ihl, ihr]
  | NeqOp l r ihl ihr =>
    simp [ExprTree.toString, ExprTree.renderChars, String.data_append, ihl, ihr]
  | OrOp l r ihl ihr =>
    simp [ExprTree.toString, ExprTree.renderChars, String.data_append, ihl, ihr]
  | EqOp l r ihl ihr =>
    simp [ExprTree.toString, ExprTree.renderChars, String.data_append, ihl, ihr]
  | NotOp c ih =>
    simp [ExprTree.toString, ExprTree.renderChars, String.data_append, ih]
  | SumOp c ih =>
    simp [ExprTree.toString, ExprTree.renderChars, String.data_append, ih]
  | AvgOp c ih =>
    simp [ExprTree.toString, ExprTree.renderChars, String.data_append, ih]

/-- Trees on which the rendering is unambiguous: no double literal (its
textual form is host floating-point formatting), no `]` inside a string
literal's content or an identifier's attribute name, and no `_` inside an
identifier's alias. -/
def ExprTree.renderSafe : ExprTree → Bool
  | BoolLiteral _ => true
  | DoubleLiteral _ => false
  | IntLiteral _ => true
  | StringLiteral v => v.data.all (fun ch => ch != ']')
  | Identifier t a =>
    t.data.all (fun ch => ch != '_') && a.data.all (fun ch => ch != ']')
  | MinusOp l r => l.renderSafe && r.renderSafe
  | PlusOp l r => l.renderSafe && r.renderSafe
  | TimesOp l r => l.renderSafe && r.renderSafe
  | DivideOp l r => l.renderSafe && r.renderSafe
  | GtOp l r => l.renderSafe && r.renderSafe
  | LtOp l r => l.renderSafe && r.renderSafe
  | NeqOp l r => l.renderSafe && r.renderSafe
  | OrOp l r => l.renderSafe && r.renderSafe
  | EqOp l r => l.renderSafe && r.renderSafe
  | NotOp c => c.renderSafe
  | SumOp c => c.renderSafe
  | AvgOp c => c.renderSafe


/-- Unique decomposition of render-safe trees: a rendering followed by any
continuation determines the tree and the continuation. -/
theorem renderChars_decomp : ∀ (e1 e2 : ExprTree) (s1 s2 : List Char),
    e1.renderSafe = true → e2.renderSafe = true →
    e1.renderChars ++ s1 = e2.renderChars ++ s2 → e1 = e2 ∧ s1 = s2 := by
  intro e1
  induction e1 with
  | BoolLiteral b =>
    intro e2 s1 s2 h1 h2 heq
    cases e2
    case BoolLiteral b2 =>
      cases b <;> cases b2 <;> simp_all [ExprTree.renderChars]
    all_goals
      exfalso
      cases b <;> simp only [ExprTree.renderChars] at heq <;> simp at heq
  | DoubleLiteral v =>
    intro e2 s1 s2 h1 h2 heq
    exact absurd h1 (by simp [ExprTree.renderSafe])
  | IntLiteral n =>
    intro e2 s1 s2 h1 h2 heq
    cases e2
    case IntLiteral n2 =>
      simp only [ExprTree.renderChars, List.cons_append, List.append_assoc,
        List.singleton_append, List.cons.injEq, eq_self_iff_true, true_and] at heq
      obtain ⟨hint, hs⟩ := append_split_at_sep (rbracket_notMem_intChars n)
        (rbracket_notMem_intChars n2) heq
      exact ⟨by rw [intChars_inj hint], hs⟩
    all_goals
      exfalso
      simp only [ExprTree.renderChars] at heq
      simp at heq
  | StringLiteral v =>
    intro e2 s1 s2 h1 h2 heq
    cases e2
    case StringLiteral v2 =>
      simp only [ExprTree.renderSafe, List.all_eq_true, bne_iff_ne, ne_eq]
        at h1 h2
      simp only [ExprTree.renderChars, List.cons_append, List.append_assoc,
        List.singleton_append, List.cons.injEq, eq_self_iff_true, true_and] at heq
      obtain ⟨hv, hs⟩ := append_split_at_sep (fun hm => h1 _ hm rfl)
        (fun hm => h2 _ hm rfl) heq
      exact ⟨by rw [String.ext hv], hs⟩
    all_goals
      exfalso
      simp only [ExprTree.renderChars] at heq
      simp at heq
  | Identifier t a =>
    intro e2 s1 s2 h1 h2 heq
    cases e2
    case Identifier t2 a2 =>
      simp only [ExprTree.renderSafe, Bool.and_eq_true, List.all_eq_true,
        bne_iff_ne, ne_eq] at h1 h2
      simp only [ExprTree.renderChars, List.cons_append, List.append_assoc,
        List.singleton_append, List.cons.injEq, eq_self_iff_true, true_and] at heq
      obtain ⟨ht, heq2⟩ := append_split_at_sep (fun hm => h1.1 _ hm rfl)
        (fun hm => h2.1 _ hm rfl) heq
      obtain ⟨ha, hs⟩ := append_split_at_sep (fun hm => h1.2 _ hm rfl)
        (fun hm => h2.2 _ hm rfl) heq2
      exact ⟨by rw [String.ext ht, String.ext ha], hs⟩
    all_goals
      exfalso
      simp only [ExprTree.renderChars] at heq
      simp at heq
  | MinusOp l r ihl ihr =>
    intro e2 s1 s2 h1 h2 heq
    simp only [ExprTree.renderSafe, Bool.and_eq_true] at h1
    cases e2
    case MinusOp l2 r2 =>
      simp only [ExprTree.renderSafe, Bool.and_eq_true] at h2
      simp only [ExprTree.renderChars, List.cons_append, List.append_assoc,
        List.singleton_append, List.cons.injEq, eq_self_iff_true, true_and] at heq
      obtain ⟨rfl, htail⟩ := ihl l2 _ _ h1.1 h2.1 heq
      simp only [List.cons.injEq, eq_self_iff_true, true_and] at htail
      obtain ⟨rfl, htail2⟩ := ihr r2 _ _ h1.2 h2.2 htail
      simp only [List.cons.injEq, eq_self_iff_true, true_and] at htail2
      exact ⟨rfl, htail2⟩
    all_goals
      exfalso
      simp only [ExprTree.renderChars] at heq
      simp at heq
  | PlusOp l r ihl ihr =>
    intro e2 s1 s2 h1 h2 heq
    simp only [ExprTree.renderSafe, Bool.and_eq_true] at h1
    cases e2
    case PlusOp l2 r2 =>
      simp only [ExprTree.renderSafe, Bool.and_eq_true] at h2
      simp only [ExprTree.renderChars, List.cons_append, List.append_assoc,
        List.singleton_append, List.cons.injEq, eq_self_iff_true, true_and] at heq
      obtain ⟨rfl, htail⟩ := ihl l2 _ _ h1.1 h2.1 heq
      simp only [List.cons.injEq, eq_self_iff_true, true_and] at htail
      obtain ⟨rfl, htail2⟩ := ihr r2 _ _ h1.2 h2.2 htail
      simp only [List.cons.injEq, eq_self_iff_true, true_and] at htail2
      exact ⟨rfl, htail2⟩
    all_goals
      exfalso
      simp only [ExprTree.renderChars] at heq
      simp at heq
  | TimesOp l r ihl ihr =>
    intro e2 s1 s2 h1 h2 heq
    simp only [ExprTree.renderSafe, Bool.and_eq_true] at h1
    cases e2
    case TimesOp l2 r2 =>
      simp only [ExprTree.renderSafe, Bool.and_eq_true] at h2
      simp only [ExprTree.renderChars, List.cons_append, List.append_assoc,
        List.singleton_append, List.cons.injEq, eq_self_iff_true, true_and] at heq
      obtain ⟨rfl, htail⟩ := ihl l2 _ _ h1.1 h2.1 heq
      simp only [List.cons.injEq, eq_self_iff_true, true_and] at htail
      obtain ⟨rfl, htail2⟩ := ihr r2 _ _ h1.2 h2.2 htail
      simp only [List.cons.injEq, eq_self_iff_true, true_and] at htail2
      exact ⟨rfl, htail2⟩
    all_goals
      exfalso
      simp only [ExprTree.renderChars] at heq
      simp at heq
  | DivideOp l r ihl ihr =>
    intro e2 s1 s2 h1 h2 heq
    simp only [ExprTree.renderSafe, Bool.and_eq_true] at h1
    cases e2
    case DivideOp l2 r2 =>
      simp only [ExprTree.renderSafe, Bool.and_eq_true] at h2
      simp only [ExprTree.renderChars, List.cons_append, List.append_assoc,
        List.singleton_append, List.cons.injEq, eq_self_iff_true, true_and] at heq
      obtain ⟨rfl, htail⟩ := ihl l2 _ _ h1.1 h2.1 heq
      simp only [List.cons.injEq, eq_self_iff_true, true_and] at htail
      obtain ⟨rfl, htail2⟩ := ihr r2 _ _ h1.2 h2.2 htail
      simp only [List.cons.injEq, eq_self_iff_true, true_and] at htail2
      exact ⟨rfl, htail2⟩
    all_goals
      exfalso
      simp only [ExprTree.renderChars] at heq
      simp at heq
  | GtOp l r ihl ihr =>
    intro e2 s1 s2 h1 h2 heq
    simp only [ExprTree.renderSafe, Bool.and_eq_true] at h1
    cases e2
    case GtOp l2 r2 =>
      simp only [ExprTree.renderSafe, Bool.and_eq_true] at h2
      simp only [ExprTree.renderChars, List.cons_append, List.append_assoc,
        List.singleton_append, List.cons.injEq, eq_self_iff_true, true_and] at heq
      obtain ⟨rfl, htail⟩ := ihl l2 _ _ h1.1 h2.1 heq
      simp only [List.cons.injEq, eq_self_iff_true, true_and] at htail
      obtain ⟨rfl, htail2⟩ := ihr r2 _ _ h1.2 h2.2 htail
      simp only [List.cons.injEq, eq_self_iff_true, true_and] at htail2
      exact ⟨rfl, htail2⟩
    all_goals
      exfalso
      simp only [ExprTree.renderChars] at heq
      simp at heq
  | LtOp l r ihl ihr =>
    intro e2 s1 s2 h1 h2 heq
    simp only [ExprTree.renderSafe, Bool.and_eq_true] at h1
    cases e2
    case LtOp l2 r2 =>
      simp only [ExprTree.renderSafe, Bool.and_eq_true] at h2
      simp only [ExprTree.renderChars, List.cons_append, List.append_assoc,
        List.singleton_append, List.cons.injEq, eq_self_iff_true, true_and] at heq
      obtain ⟨rfl, htail⟩ := ihl l2 _ _ h1.1 h2.1 heq
      simp only [List.cons.injEq, eq_self_iff_true, true_and] at htail
      obtain ⟨rfl, htail2⟩ := ihr r2 _ _ h1.2 h2.2 htail
      simp only [List.cons.injEq, eq_self_iff_true, true_and] at htail2
      exact ⟨rfl, htail2⟩
    all_goals
      exfalso
      simp only [ExprTree.renderChars] at heq
      simp at heq
  | NeqOp l r ihl ihr =>
    intro e2 s1 s2 h1 h2 heq
    simp only [ExprTree.renderSafe, Bool.and_eq_true] at h1
    cases e2
    case NeqOp l2 r2 =>
      simp only [ExprTree.renderSafe, Bool.and_eq_true] at h2
      simp only [ExprTree.renderChars, List.cons_append, List.append_assoc,
        List.singleton_append, List.cons.injEq, eq_self_iff_true, true_and] at heq
      obtain ⟨rfl, htail⟩ := ihl l2 _ _ h1.1 h2.1 heq
      simp only [List.cons.injEq, eq_self_iff_true, true_and] at htail
      obtain ⟨rfl, htail2⟩ := ihr r2 _ _ h1.2 h2.2 htail
      simp only [List.cons.injEq, eq_self_iff_true, true_and] at htail2
      exact ⟨rfl, htail2⟩
    all_goals
      exfalso
      simp only [ExprTree.renderChars] at heq
      simp at heq
  | OrOp l r ihl ihr =>
    intro e2 s1 s2 h1 h2 heq
    simp only [ExprTree.renderSafe, Bool.and_eq_true] at h1
    cases e2
    case OrOp l2 r2 =>
      simp only [ExprTree.renderSafe, Bool.and_eq_true] at h2
      simp only [ExprTree.renderChars, List.cons_append, List.append_assoc,
        List.singleton_append, List.cons.injEq, eq_self_iff_true, true_and] at heq
      obtain ⟨rfl, htail⟩ := ihl l2 _ _ h1.1 h2.1 heq
      simp only [List.cons.injEq, eq_self_iff_true, true_and] at htail
      obtain ⟨rfl, htail2⟩ := ihr r2 _ _ h1.2 h2.2 htail
      simp only [List.cons.injEq, eq_self_iff_true, true_and] at htail2
      exact ⟨rfl, htail2⟩
    all_goals
      exfalso
      simp only [ExprTree.renderChars] at heq
      simp at heq
  | EqOp l r ihl ihr =>
    intro e2 s1 s2 h1 h2 heq
    simp only [ExprTree.renderSafe, Bool.and_eq_true] at h1
    cases e2
    case EqOp l2 r2 =>
      simp only [ExprTree.renderSafe, Bool.and_eq_true] at h2
      simp only [ExprTree.renderChars, List.cons_append, List.append_assoc,
        List.singleton_append, List.cons.injEq, eq_self_iff_true, true_and] at heq
      obtain ⟨rfl, htail⟩ := ihl l2 _ _ h1.1 h2.1 heq
      simp only [List.cons.injEq, eq_self_iff_true, true_and] at htail
      obtain ⟨rfl, htail2⟩ := ihr r2 _ _ h1.2 h2.2 htail
      simp only [List.cons.injEq, eq_self_iff_true, true_and] at htail2
      exact ⟨rfl, htail2⟩
    all_goals
      exfalso
      simp only [ExprTree.renderChars] at heq
      simp at heq
  | NotOp c ih =>
    intro e2 s1 s2 h1 h2 heq
    simp only [ExprTree.renderSafe] at h1
    cases e2
    case NotOp c2 =>
      simp only [ExprTree.renderSafe] at h2
      simp only [ExprTree.renderChars, List.cons_append, List.append_assoc,
        List.singleton_append, List.cons.injEq, eq_self_iff_true, true_and] at heq
      obtain ⟨rfl, htail⟩ := ih c2 _ _ h1 h2 heq
      simp only [List.cons.injEq, eq_self_iff_true, true_and] at htail
      exact ⟨rfl, htail⟩
    all_goals
      exfalso
      simp only [ExprTree.renderChars] at heq
      simp at heq
  | SumOp c ih =>
    intro e2 s1 s2 h1 h2 heq
    simp only [ExprTree.renderSafe] at h1
    cases e2
    case SumOp c2 =>
      simp only [ExprTree.renderSafe] at h2
      simp only [ExprTree.renderChars, List.cons_append, List.append_assoc,
        List.singleton_append, List.cons.injEq, eq_self_iff_true, true_and] at heq
      obtain ⟨rfl, htail⟩ := ih c2 _ _ h1 h2 heq
      simp only [List.cons.injEq, eq_self_iff_true, true_and] at htail
      exact ⟨rfl, htail⟩
    all_goals
      exfalso
      simp only [ExprTree.renderChars] at heq
      simp at heq
  | AvgOp c ih =>
    intro e2 s1 s2 h1 h2 heq
    simp only [ExprTree.renderSafe] at h1
    cases e2
    case AvgOp c2 =>
      simp only [ExprTree.renderSafe] at h2
      simp only [ExprTree.renderChars, List.cons_append, List.append_assoc,
        List.singleton_append, List.cons.injEq, eq_self_iff_true, true_and] at heq
      obtain ⟨rfl, htail⟩ := ih c2 _ _ h1 h2 heq
      simp only [List.cons.injEq, eq_self_iff_true, true_and] at htail
      exact ⟨rfl, htail⟩
    all_goals
      exfalso
      simp only [ExprTree.renderChars] at heq
      simp at heq


/-- Counterexample to C9 as stated: the structurally different attribute
references `[a_b_c]` built as (alias `a`, attribute `b_c`) and as (alias
`a_b`, attribute `c`) render to the same string — `toString` is not
injective over structure. -/
theorem toString_not_injective :
    (Identifier "a" "b_c").toString = (Identifier "a_b" "c").toString ∧
    Identifier "a" "b_c" ≠ Identifier "a_b" "c" := by
  refine ⟨by decide, fun h => ?_⟩
  injection h with h1 h2
  exact absurd h1 (by decide)

/-- C9 (amended): `toString` is injective over structure on render-safe
trees — those with no double literal, no `]` in string-literal contents or
identifier attribute names, and no `_` in identifier aliases; outside that
class, renderings can collide (identifier underscore ambiguity, literal
value formatting). -/
theorem toString_injective_on_renderSafe (e1 e2 : ExprTree)
    (h1 : e1.renderSafe = true) (h2 : e2.renderSafe = true)
    (heq : e1.toString = e2.toString) : e1 = e2 := by
  have hd : e1.renderChars ++ ([] : List Char) = e2.renderChars ++ [] := by
    rw [← ExprTree.toString_data, ← ExprTree.toString_data, heq]
  exact (renderChars_decomp e1 e2 [] [] h1 h2 hd).1

/-- Witness for the amended C9 at a concrete input: two render-safe trees
with equal renderings are equal. -/
theorem toString_injective_on_renderSafe_witness :
    GtOp (Identifier "o" "a") (StringLiteral "x") =
      GtOp (Identifier "o" "a") (StringLiteral "x") :=
  toString_injective_on_renderSafe
    (GtOp (Identifier "o" "a") (StringLiteral "x"))
    (GtOp (Identifier "o" "a") (StringLiteral "x"))
    (by decide) (by decide) rfl

end A5
